import Mathlib

/-!
Verification of the AgentSwarm orchestration core against its
natural-language specification.  The definitions below are a shallow
embedding of the Python sources: CLI helpers are translated from
`src/agentswarm/cli/main.py`; components whose implementation modules are
not part of the available tree (the agent orchestrator and both state
stores) are modelled from the specification, as indicated in their doc
comments.
-/

namespace AgentSwarm

/-! ## Workflow data model (spec section 3, `workflows.models`) -/

/-- Execution status of a workflow, the closed enumeration
`{pending, running, completed, failed, cancelled}` of the spec. -/
inductive WorkflowStatus where
  | pending
  | running
  | completed
  | failed
  | cancelled
deriving DecidableEq, Repr

/-- A workflow status is terminal when it is completed, failed or cancelled. -/
def WorkflowStatus.isTerminal : WorkflowStatus → Bool
  | .completed => true
  | .failed => true
  | .cancelled => true
  | _ => false

/-- String form of a Python value, where `none` stands for Python `None`
(whose `str()` is the four-character string `None`) and `some s` stands for
any other value whose string form is `s`. -/
def pyStr : Option String → String
  | none => "None"
  | some s => s

/-- A `WorkflowExecution` record.  Timestamps are abstract integers;
`step_results` maps step ids to their recorded results (where `none`
models a recorded Python `None` result). -/
structure WorkflowExecution where
  id : String
  definition_id : String
  status : WorkflowStatus
  step_results : List (String × Option String)
  start_time : Option Int
  end_time : Option Int
  error : Option String
deriving DecidableEq, Repr

/-! ## Workflow State Store

The module `agentswarm/workflows/state.py` is not part of the available
sources; its operations are modelled from the spec (section 4.4):
`save(execution)` upserts by id, `get(id)` looks a record up by id. -/

/-- Modelled from the spec: the Workflow State Store holds one logical
record per execution id; `save_execution` upserts by id, replacing the
record with the saved execution's id or appending a new record. -/
def saveExecution (ex : WorkflowExecution) : List WorkflowExecution → List WorkflowExecution
  | [] => [ex]
  | e :: rest => if e.id = ex.id then ex :: rest else e :: saveExecution ex rest

/-- Modelled from the spec: `get_execution(id)` returns the stored record
with the given id, if any. -/
def getExecution (store : List WorkflowExecution) (eid : String) : Option WorkflowExecution :=
  store.find? (fun e => e.id == eid)

/-! ## CLI `workflow cancel` (src/agentswarm/cli/main.py 1304-1337)

The command looks the execution up, rejects when the status is not
`running`/`pending`, and otherwise stamps `cancelled` plus `end_time`
and saves the record back. -/

/-- The `workflow cancel` command of the CLI: returns the updated store.
The guard mirrors `execution.status.value not in ["running", "pending"]`
in `main.py`; a missing execution or a terminal status leaves the store
untouched. -/
def cancelExecution (store : List WorkflowExecution) (eid : String) (now : Int) :
    List WorkflowExecution :=
  match getExecution store eid with
  | none => store
  | some ex =>
      if ex.status = .running ∨ ex.status = .pending then
        saveExecution { ex with status := .cancelled, end_time := some now } store
      else
        store

/-! ## Workflow State Store cleanup and statistics

`cleanup_old_executions` and `get_execution_stats` live in the missing
`workflows/state.py`; both are modelled from the spec (section 4.4). -/

/-- Modelled from the spec: an execution is deleted by cleanup exactly when
it is terminal and its `end_time` precedes `now - older_than_days` (days
converted to seconds). -/
def cleanupDeletes (now : Int) (days : Nat) (e : WorkflowExecution) : Bool :=
  e.status.isTerminal &&
    match e.end_time with
    | some t => decide (t < now - (days : Int) * 86400)
    | none => false

/-- Modelled from the spec: `cleanup_old_executions(days)` deletes the
terminal executions whose `end_time` precedes `now - days` and returns the
count removed together with the remaining store. -/
def cleanupOldExecutions (store : List WorkflowExecution) (now : Int) (days : Nat) :
    Nat × List WorkflowExecution :=
  (store.countP (cleanupDeletes now days), store.filter (fun e => !cleanupDeletes now days e))

/-- The record returned by `stats()`: totals per status plus a success
rate expressed as a rational number of percent. -/
structure ExecutionStats where
  total : Nat
  completed : Nat
  failed : Nat
  running : Nat
  success_rate : ℚ
deriving DecidableEq, Repr

/-- Modelled from the spec: `get_execution_stats()` counts executions per
status and computes `success_rate = 100 * completed / (completed + failed)`,
defined as `0` when the denominator is `0`. -/
def getExecutionStats (store : List WorkflowExecution) : ExecutionStats :=
  let c := store.countP (fun e => e.status = .completed)
  let f := store.countP (fun e => e.status = .failed)
  let r := store.countP (fun e => e.status = .running)
  { total := store.length
    completed := c
    failed := f
    running := r
    success_rate := if c + f = 0 then 0 else (100 * c : ℚ) / ((c : ℚ) + (f : ℚ)) }

/-! ## CLI workflow payload serialization
(`_workflow_execution_to_dict`, src/agentswarm/cli/main.py 414-437) -/

/-- One entry of the `steps` list built by `_workflow_execution_to_dict`. -/
structure StepPayload where
  id : String
  status : String
  result_summary : String
deriving DecidableEq, Repr

/-- Serialization of one `step_results` entry, translated from
`_workflow_execution_to_dict`: status is `completed` when the recorded
result is not `None`, else `unknown`; the summary truncates the string
form after 80 characters. -/
def stepPayload (entry : String × Option String) : StepPayload :=
  let resultStr := pyStr entry.2
  { id := entry.1
    status := if entry.2.isSome then "completed" else "unknown"
    result_summary := if resultStr.length > 80 then resultStr.take 80 ++ "..." else resultStr }

/-- The `steps` list of the serialized workflow payload. -/
def workflowStepsPayload (step_results : List (String × Option String)) : List StepPayload :=
  step_results.map stepPayload

/-! ## Agent pool data model (spec section 3, `core.models`) -/

/-- Status of one spawned agent process. -/
inductive ProcessStatus where
  | running
  | stopped
  | unknown
deriving DecidableEq, Repr

/-- Configuration of one agent type: instance count, optional command
template and default task list (the `{instances, command_template, tasks}`
mapping of the spec). -/
structure AgentSpec where
  instances : Nat := 1
  command_template : Option String := none
  tasks : List String := []
deriving DecidableEq, Repr

/-- An `AgentProcess` record as created at spawn time. -/
structure AgentProcess where
  pid : Nat
  agent_type : String
  instance_id : Nat
  command : String
  status : ProcessStatus
  tasks : List String
deriving DecidableEq, Repr

/-! ## Command Builder (spec section 4.1)

`AgentOrchestrator._build_agent_command` lives in the missing
`core/orchestrator.py`; the builder below is modelled from the spec:
a template with the placeholders `{task}`, `{task_list}`, `{tasks_json}`,
`{project}`, `{agent}`, `{instance}` is rendered per instance, and a
missing or malformed template, or one referencing an unknown placeholder,
falls back to a fixed command.  The spec does not give the join for
`{task_list}`; a single blank is used.  The spec also guarantees a
non-empty output, so an empty render counts as malformed. -/

/-- Look a placeholder name up in the substitution environment. -/
def lookupPlaceholder (env : List (String × String)) (name : List Char) : Option String :=
  (env.find? (fun p => p.1 == String.mk name)).map (fun p => p.2)

/-- Render the character stream of a template.  The second argument is the
placeholder name currently being read (`none` outside braces); `none` as
result signals a malformed template or an unknown placeholder. -/
def renderChars (env : List (String × String)) :
    List Char → Option (List Char) → Option (List Char)
  | [], none => some []
  | [], some _ => none
  | c :: rest, none =>
      if c = '{' then renderChars env rest (some [])
      else if c = '}' then none
      else (renderChars env rest none).map (fun out => c :: out)
  | c :: rest, some name =>
      if c = '}' then
        match lookupPlaceholder env name with
        | some v => (renderChars env rest none).map (fun out => v.data ++ out)
        | none => none
      else if c = '{' then none
      else renderChars env rest (some (name ++ [c]))

/-- Render a whole template string against an environment. -/
def renderTemplate (env : List (String × String)) (tmpl : String) : Option String :=
  (renderChars env tmpl.data none).map String.mk

/-- Quote a string as a JSON literal (escaping is not modelled; the tasks
used by the repository contain no quotes). -/
def jsonQuote (s : String) : String := "\"" ++ s ++ "\""

/-- JSON encoding of a task list. -/
def jsonTaskList (tasks : List String) : String :=
  "[" ++ String.intercalate ", " (tasks.map jsonQuote) ++ "]"

/-- The substitution environment of the Command Builder: the placeholder
contract of spec section 6. -/
def commandEnv (agentType : String) (inst : Nat) (projectPath : String)
    (tasks : List String) : List (String × String) :=
  [("task", String.intercalate " && " tasks),
   ("task_list", String.intercalate " " tasks),
   ("tasks_json", jsonTaskList tasks),
   ("project", projectPath),
   ("agent", agentType),
   ("instance", toString inst)]

/-- The deterministic fallback command of spec section 4.1. -/
def fallbackCommand (agentType : String) (inst : Nat) : String :=
  agentType ++ " exec \"Working on instance " ++ toString inst ++ "\""

/-- Modelled from the spec: the Command Builder.  Never fails: a missing,
empty or malformed template, or one referencing an unknown placeholder,
yields the fallback command. -/
def buildAgentCommand (agentType : String) (inst : Nat) (projectPath : String)
    (spec : AgentSpec) : String :=
  match spec.command_template with
  | none => fallbackCommand agentType inst
  | some tmpl =>
      match renderTemplate (commandEnv agentType inst projectPath spec.tasks) tmpl with
      | some rendered => if rendered = "" then fallbackCommand agentType inst else rendered
      | none => fallbackCommand agentType inst

/-! ## Agent Pool Manager deploy (spec section 4.2)

`AgentOrchestrator.deploy_swarm` lives in the missing
`core/orchestrator.py`; it is modelled from the spec: for every configured
agent type it spawns `instances` processes with commands from the builder,
instance ids `1..instances` and initial status `running`.  Process
creation is modelled by a deterministic fresh-pid supply: each spawn takes
the next unused pid. -/

/-- Spawn the processes of one agent type, taking pids from `nextPid`
upward and numbering instances from 1. -/
def spawnInstances (agentType : String) (spec : AgentSpec) (projectPath : String)
    (nextPid : Nat) : List AgentProcess :=
  (List.range spec.instances).map (fun i =>
    { pid := nextPid + i
      agent_type := agentType
      instance_id := i + 1
      command := buildAgentCommand agentType (i + 1) projectPath spec
      status := .running
      tasks := spec.tasks })

/-- Modelled from the spec: `deploy` spawns every configured agent type in
turn, threading the fresh-pid supply through the spawns. -/
def deployAgents (projectPath : String) :
    List (String × AgentSpec) → Nat → List (String × List AgentProcess)
  | [], _ => []
  | (t, spec) :: rest, nextPid =>
      (t, spawnInstances t spec projectPath nextPid) ::
        deployAgents projectPath rest (nextPid + spec.instances)

/-! ## Swarm State Store (spec section 4.4)

`core/state.py` is not part of the available sources; `record_deployment`
(upsert by id) and `get_deployment` are modelled from the spec.  The store
holds persisted records: the deployment's fields with each process's
fields intact. -/

/-- The persisted form of one agent process record. -/
structure PersistedProcess where
  pid : Nat
  agent_type : String
  instance_id : Nat
  command : String
  status : ProcessStatus
  tasks : List String
deriving DecidableEq, Repr

/-- The persisted form of one deployment record. -/
structure PersistedDeployment where
  deployment_id : String
  agents : List (String × List PersistedProcess)
  config : List (String × AgentSpec)
  start_time : String
deriving DecidableEq, Repr

/-- A live `SwarmDeployment` as held by the orchestrator. -/
structure SwarmDeployment where
  deployment_id : String
  agents : List (String × List AgentProcess)
  config : List (String × AgentSpec)
  start_time : String
deriving DecidableEq, Repr

/-- Persisted form of a process: every field is kept. -/
def persistProcess (p : AgentProcess) : PersistedProcess :=
  { pid := p.pid
    agent_type := p.agent_type
    instance_id := p.instance_id
    command := p.command
    status := p.status
    tasks := p.tasks }

/-- Persisted form of a deployment: id, agents mapping, config snapshot
and start time. -/
def persistDeployment (d : SwarmDeployment) : PersistedDeployment :=
  { deployment_id := d.deployment_id
    agents := d.agents.map (fun entry => (entry.1, entry.2.map persistProcess))
    config := d.config
    start_time := d.start_time }

/-- Modelled from the spec: `record_deployment` upserts the persisted form
of the deployment by `deployment_id`. -/
def recordDeployment (d : SwarmDeployment) :
    List PersistedDeployment → List PersistedDeployment
  | [] => [persistDeployment d]
  | r :: rest =>
      if r.deployment_id = d.deployment_id then persistDeployment d :: rest
      else r :: recordDeployment d rest

/-- Modelled from the spec: `get_deployment(id)` returns the stored record
with the given id, if any. -/
def getDeployment (store : List PersistedDeployment) (did : String) :
    Option PersistedDeployment :=
  store.find? (fun r => r.deployment_id == did)

/-! ## CLI `--task` option handling (`_load_config`,
src/agentswarm/cli/main.py 110-120)

After merging configuration sources, `_load_config` walks every agent
entry and appends the `--task` value to its task list unless already
present.  The surrounding `if task:` makes the whole block a no-op for a
missing or empty task string (Python truthiness). -/

/-- One agent entry of `_load_config`: append the task when absent. -/
def appendTaskIfAbsent (t : String) (spec : AgentSpec) : AgentSpec :=
  if t ∈ spec.tasks then spec else { spec with tasks := spec.tasks ++ [t] }

/-- The `--task` stage of `_load_config`: for a truthy task value, append
it to every agent's task list unless already present. -/
def loadConfigApplyTask (task : Option String) (agents : List (String × AgentSpec)) :
    List (String × AgentSpec) :=
  match task with
  | none => agents
  | some t =>
      if t = "" then agents
      else agents.map (fun p => (p.1, appendTaskIfAbsent t p.2))

/-! ## Health probe (`_pid_running` and `_build_status_table`,
src/agentswarm/cli/main.py 1634-1671)

The operating system is modelled by the set of live pids; `kill(2)` with
signal 0 only reports whether the pid exists, while any other signal
removes the target process.  State passing makes any mutation of the
process table visible in the result. -/

/-- The set of live OS processes. -/
structure OsState where
  live : List Nat
deriving DecidableEq, Repr

/-- POSIX `kill(2)`: returns whether the call succeeded (the pid exists)
and the resulting process table.  Signal 0 performs only an existence
check; any other signal terminates the target. -/
def osKill (os : OsState) (pid : Nat) (sig : Nat) : Bool × OsState :=
  if pid ∈ os.live then
    if sig = 0 then (true, os) else (true, { live := os.live.erase pid })
  else (false, os)

/-- `_pid_running`: probe a pid with `os.kill(pid, 0)`, reporting `false`
on `OSError`. -/
def pidRunning (os : OsState) (pid : Nat) : Bool × OsState :=
  osKill os pid 0

/-- The per-agent-type counting loop of `_build_status_table`: a process
with a truthy pid that probes alive counts as running, every other one as
stopped. -/
def statusRow (os : OsState) (processes : List PersistedProcess) : (Nat × Nat) × OsState :=
  processes.foldl
    (fun acc proc =>
      if proc.pid ≠ 0 then
        let probe := pidRunning acc.2 proc.pid
        if probe.1 then ((acc.1.1 + 1, acc.1.2), probe.2)
        else ((acc.1.1, acc.1.2 + 1), probe.2)
      else ((acc.1.1, acc.1.2 + 1), acc.2))
    ((0, 0), os)

/-- `_build_status_table`: one (running, stopped) row per agent type of
the deployment, threading the OS state through the probes. -/
def buildStatusRows (os : OsState) :
    List (String × List PersistedProcess) → List (String × Nat × Nat) × OsState
  | [] => ([], os)
  | (t, procs) :: rest =>
      let row := statusRow os procs
      let others := buildStatusRows row.2 rest
      ((t, row.1) :: others.1, others.2)

/-! ## Workflow DAG Engine scheduling (spec sections 4.3 and 5)

`workflows/orchestrator.py` is not part of the available sources; the
engine's scheduling discipline is modelled from the spec as a transition
system: a step may start only when every declared dependency already has
an entry in `step_results`, and a result is recorded only for a step that
has started and has no result yet.  Interleavings of concurrent steps are
all transition sequences of this relation. -/

/-- A workflow step: id, assigned agent type and declared dependencies. -/
structure WorkflowStep where
  id : String
  agent_type : String
  dependencies : List String
deriving DecidableEq, Repr

/-- The scheduling state of one execution: the ids of the steps that have
begun executing, and the recorded `step_results` entries. -/
structure EngineState where
  started : List String
  step_results : List (String × String)
deriving DecidableEq, Repr

/-- Step ids that have an entry recorded in `step_results`. -/
def EngineState.recordedIds (st : EngineState) : List String :=
  st.step_results.map Prod.fst

/-- The state a run begins in: nothing started, nothing recorded. -/
def initialEngineState : EngineState := { started := [], step_results := [] }

/-- Modelled from the spec: the engine's transitions.  `dispatch` begins a
ready step — one whose every declared dependency already has a recorded
result; `finish` records the result of a step that has begun. -/
inductive EngineStep (wf : List WorkflowStep) : EngineState → EngineState → Prop
  | dispatch (st : EngineState) (s : WorkflowStep)
      (hmem : s ∈ wf)
      (hnew : s.id ∉ st.started)
      (hdeps : ∀ d ∈ s.dependencies, d ∈ st.recordedIds) :
      EngineStep wf st { st with started := s.id :: st.started }
  | finish (st : EngineState) (s : WorkflowStep) (result : String)
      (hmem : s ∈ wf)
      (hstarted : s.id ∈ st.started)
      (hnotdone : s.id ∉ st.recordedIds) :
      EngineStep wf st { st with step_results := (s.id, result) :: st.step_results }

/-- States reachable from the initial state of an execution. -/
def EngineReachable (wf : List WorkflowStep) (st : EngineState) : Prop :=
  Relation.ReflTransGen (EngineStep wf) initialEngineState st

/-- The scheduling invariant: every step of the workflow that has begun
executing or has a recorded result has all of its declared dependencies
recorded in `step_results`. -/
def EngineInv (wf : List WorkflowStep) (st : EngineState) : Prop :=
  ∀ s ∈ wf, (s.id ∈ st.started ∨ s.id ∈ st.recordedIds) →
    ∀ d ∈ s.dependencies, d ∈ st.recordedIds

/-! # Theorems -/

/-! ## Workflow State Store helper lemmas -/

/-- `get_execution` after `save_execution` returns the saved record. -/
theorem getExecution_saveExecution (ex : WorkflowExecution) (store : List WorkflowExecution) :
    getExecution (saveExecution ex store) ex.id = some ex := by
  induction store with
  | nil => simp [saveExecution, getExecution]
  | cons e rest ih =>
      by_cases h : e.id = ex.id
      · simp [saveExecution, h, getExecution]
      · simp only [saveExecution, if_neg h]
        unfold getExecution at ih ⊢
        rw [List.find?_cons]
        have hbeq : (e.id == ex.id) = false := by simp [h]
        simp [hbeq, ih]

/-- A stored execution found by id carries that id. -/
theorem getExecution_id (store : List WorkflowExecution) (eid : String)
    (ex : WorkflowExecution) (hget : getExecution store eid = some ex) :
    ex.id = eid := by
  have hget' : store.find? (fun e => e.id == eid) = some ex := hget
  have := List.find?_some hget'
  simpa using this

/-- Claim C3: `cancel(execution_id)` succeeds only while the execution's
status is `pending` or `running`, in which case it sets the status to
`cancelled` and stamps `end_time`; for a terminal status the command is
rejected and the stored execution is left entirely unchanged. -/
theorem cancel_only_while_active (store : List WorkflowExecution) (eid : String) (now : Int)
    (ex : WorkflowExecution) (hget : getExecution store eid = some ex) :
    ((ex.status = .pending ∨ ex.status = .running) →
      getExecution (cancelExecution store eid now) eid =
        some { ex with status := .cancelled, end_time := some now }) ∧
    (ex.status.isTerminal = true → cancelExecution store eid now = store) := by
  have hid : ex.id = eid := getExecution_id store eid ex hget
  constructor
  · intro hact
    have hguard : ex.status = .running ∨ ex.status = .pending := hact.symm
    have hred : cancelExecution store eid now =
        saveExecution { ex with status := .cancelled, end_time := some now } store := by
      unfold cancelExecution
      rw [hget]
      exact if_pos hguard
    rw [hred, ← hid]
    exact getExecution_saveExecution _ store
  · intro hterm
    have hng : ¬ (ex.status = .running ∨ ex.status = .pending) := by
      cases hs : ex.status <;> simp_all [WorkflowStatus.isTerminal]
    have hred : cancelExecution store eid now = store := by
      unfold cancelExecution
      rw [hget]
      exact if_neg hng
    exact hred

/-- Claim C3 witness: cancelling a running execution stamps `cancelled`
and an `end_time`. -/
theorem cancel_only_while_active_witness :
    getExecution
      (cancelExecution
        [{ id := "exec-1", definition_id := "codebase-analysis", status := .running,
           step_results := [], start_time := some 0, end_time := none, error := none }]
        "exec-1" 5)
      "exec-1" =
    some { id := "exec-1", definition_id := "codebase-analysis", status := .cancelled,
           step_results := [], start_time := some 0, end_time := some 5, error := none } :=
  (cancel_only_while_active
      [{ id := "exec-1", definition_id := "codebase-analysis", status := .running,
         step_results := [], start_time := some 0, end_time := none, error := none }]
      "exec-1" 5
      { id := "exec-1", definition_id := "codebase-analysis", status := .running,
        step_results := [], start_time := some 0, end_time := none, error := none }
      (by decide)).1 (Or.inr rfl)

/-- Claim C10: the serialized payload reports a step's status as
`completed` exactly when its recorded result is not `None` and as
`unknown` otherwise, and the step's `result_summary` is the full string
form of the result when it has at most 80 characters and its first 80
characters followed by `...` otherwise. -/
theorem step_payload_serialization (sid : String) (r : Option String) :
    ((stepPayload (sid, r)).status = "completed" ↔ r ≠ none) ∧
    ((stepPayload (sid, r)).status = "unknown" ↔ r = none) ∧
    (stepPayload (sid, r)).id = sid ∧
    ((stepPayload (sid, r)).result_summary =
      if (pyStr r).length ≤ 80 then pyStr r else (pyStr r).take 80 ++ "...") := by
  refine ⟨?_, ?_, rfl, ?_⟩
  · cases r <;> simp [stepPayload]
  · cases r <;> simp [stepPayload]
  · rcases le_or_lt (pyStr r).length 80 with h | h
    · simp [stepPayload, h, Nat.not_lt.mpr h]
    · simp [stepPayload, h, Nat.not_le.mpr h]

/-! ## Cleanup and statistics lemmas -/

/-- Characterization of the cleanup deletion predicate. -/
theorem cleanupDeletes_iff (now : Int) (days : Nat) (e : WorkflowExecution) :
    cleanupDeletes now days e = true ↔
      e.status.isTerminal = true ∧
        ∃ t, e.end_time = some t ∧ t < now - (days : Int) * 86400 := by
  cases he : e.end_time with
  | none => simp [cleanupDeletes, he]
  | some t => simp [cleanupDeletes, he]

/-- Membership in the post-cleanup store, for executions of the store. -/
theorem mem_cleanup_iff (store : List WorkflowExecution) (now : Int) (days : Nat)
    (e : WorkflowExecution) (he : e ∈ store) :
    e ∈ (cleanupOldExecutions store now days).2 ↔ ¬ cleanupDeletes now days e = true := by
  simp [cleanupOldExecutions, List.mem_filter, he]

/-- Counting deleted plus surviving elements gives the store size. -/
theorem countP_add_length_filter_not (p : WorkflowExecution → Bool)
    (l : List WorkflowExecution) :
    l.countP p + (l.filter (fun a => !p a)).length = l.length := by
  induction l with
  | nil => simp
  | cons a l ih =>
      by_cases h : p a = true
      · simp [List.countP_cons, List.filter_cons, h]
        omega
      · simp [List.countP_cons, List.filter_cons, h]
        omega

/-- Claim C6: cleanup deletes exactly the terminal executions whose
`end_time` precedes `now - older_than_days`, returns the count deleted,
never removes a pending or running execution, and — whenever every
terminal execution ended before `now` — `cleanup(0)` removes all terminal
executions while keeping exactly the active ones. -/
theorem cleanup_removes_only_old_terminal (store : List WorkflowExecution)
    (now : Int) (days : Nat) :
    (∀ e ∈ store,
        (e ∉ (cleanupOldExecutions store now days).2 ↔
          e.status.isTerminal = true ∧
            ∃ t, e.end_time = some t ∧ t < now - (days : Int) * 86400)) ∧
    (∀ e ∈ store, (e.status = .pending ∨ e.status = .running) →
        e ∈ (cleanupOldExecutions store now days).2) ∧
    (cleanupOldExecutions store now days).1 +
        (cleanupOldExecutions store now days).2.length = store.length ∧
    ((∀ e ∈ store, e.status.isTerminal = true → ∃ t, e.end_time = some t ∧ t < now) →
      ∀ e ∈ store,
        (e ∈ (cleanupOldExecutions store now 0).2 ↔
          (e.status = .pending ∨ e.status = .running))) := by
  refine ⟨?_, ?_, ?_, ?_⟩
  · intro e he
    rw [← cleanupDeletes_iff now days e]
    rw [mem_cleanup_iff store now days e he]
    exact not_not
  · intro e he hact
    rw [mem_cleanup_iff store now days e he]
    rcases hact with h | h <;> simp [cleanupDeletes, h, WorkflowStatus.isTerminal]
  · exact countP_add_length_filter_not (cleanupDeletes now days) store
  · intro hold e he
    rw [mem_cleanup_iff store now 0 e he]
    constructor
    · intro hkeep
      cases hs : e.status with
      | pending => exact Or.inl rfl
      | running => exact Or.inr rfl
      | completed =>
          exfalso
          apply hkeep
          rw [cleanupDeletes_iff]
          exact ⟨by rw [hs]; rfl, by simpa using hold e he (by rw [hs]; rfl)⟩
      | failed =>
          exfalso
          apply hkeep
          rw [cleanupDeletes_iff]
          exact ⟨by rw [hs]; rfl, by simpa using hold e he (by rw [hs]; rfl)⟩
      | cancelled =>
          exfalso
          apply hkeep
          rw [cleanupDeletes_iff]
          exact ⟨by rw [hs]; rfl, by simpa using hold e he (by rw [hs]; rfl)⟩
    · intro hact
      rw [cleanupDeletes_iff]
      rintro ⟨hterm, -⟩
      rcases hact with h | h <;> rw [h] at hterm <;> cases hterm

/-- Claim C6 witness: with one old completed and one running execution,
`cleanup(0)` keeps exactly the running one. -/
theorem cleanup_removes_only_old_terminal_witness :
    ({ id := "e2", definition_id := "production-readiness", status := .running,
       step_results := [], start_time := some 0, end_time := none, error := none } ∈
      (cleanupOldExecutions
        [{ id := "e1", definition_id := "codebase-analysis", status := .completed,
           step_results := [], start_time := some 0, end_time := some 10, error := none },
         { id := "e2", definition_id := "production-readiness", status := .running,
           step_results := [], start_time := some 0, end_time := none, error := none }]
        100 0).2 ↔
      (({ id := "e2", definition_id := "production-readiness", status := .running,
          step_results := [], start_time := some 0, end_time := none,
          error := none } : WorkflowExecution).status = .pending ∨
       ({ id := "e2", definition_id := "production-readiness", status := .running,
          step_results := [], start_time := some 0, end_time := none,
          error := none } : WorkflowExecution).status = .running)) :=
  (cleanup_removes_only_old_terminal
      [{ id := "e1", definition_id := "codebase-analysis", status := .completed,
         step_results := [], start_time := some 0, end_time := some 10, error := none },
       { id := "e2", definition_id := "production-readiness", status := .running,
         step_results := [], start_time := some 0, end_time := none, error := none }]
      100 0).2.2.2
    (by
      intro e he hterm
      rcases List.mem_cons.mp he with rfl | he2
      · exact ⟨10, rfl, by norm_num⟩
      · rcases List.mem_cons.mp he2 with rfl | he3
        · cases hterm
        · cases he3)
    _ (by simp)

/-- Claim C7: `stats()` reports totals and a success rate equal to
`100 * completed / (completed + failed)`, equal to `0` when the
denominator is `0` — in particular when no terminal execution exists —
and equal to `100` when terminal executions exist and all of them are
completed. -/
theorem stats_success_rate_spec (store : List WorkflowExecution) :
    (getExecutionStats store).total = store.length ∧
    ((getExecutionStats store).completed + (getExecutionStats store).failed = 0 →
      (getExecutionStats store).success_rate = 0) ∧
    ((getExecutionStats store).completed + (getExecutionStats store).failed ≠ 0 →
      (getExecutionStats store).success_rate =
        100 * ((getExecutionStats store).completed : ℚ) /
          (((getExecutionStats store).completed : ℚ) +
            ((getExecutionStats store).failed : ℚ))) ∧
    ((∀ e ∈ store, e.status.isTerminal = false) →
      (getExecutionStats store).success_rate = 0) ∧
    ((∃ e ∈ store, e.status.isTerminal = true) →
      (∀ e ∈ store, e.status.isTerminal = true → e.status = .completed) →
      (getExecutionStats store).success_rate = 100) := by
  refine ⟨rfl, ?_, ?_, ?_, ?_⟩
  · intro h
    simp only [getExecutionStats] at h ⊢
    simp [h]
  · intro h
    simp only [getExecutionStats] at h ⊢
    simp [h]
  · intro h
    have hc : store.countP (fun e => e.status = .completed) = 0 := by
      rw [List.countP_eq_zero]
      intro e he
      have ht := h e he
      simp only [decide_eq_true_eq]
      intro hcontra
      rw [hcontra] at ht
      cases ht
    have hf : store.countP (fun e => e.status = .failed) = 0 := by
      rw [List.countP_eq_zero]
      intro e he
      have ht := h e he
      simp only [decide_eq_true_eq]
      intro hcontra
      rw [hcontra] at ht
      cases ht
    simp [getExecutionStats, hc, hf]
  · rintro ⟨e0, he0, ht0⟩ hall
    have hc : 0 < store.countP (fun e => e.status = .completed) := by
      rw [List.countP_pos_iff]
      exact ⟨e0, he0, by simp [hall e0 he0 ht0]⟩
    have hf : store.countP (fun e => e.status = .failed) = 0 := by
      rw [List.countP_eq_zero]
      intro e he
      simp only [decide_eq_true_eq]
      intro hcontra
      have : e.status = .completed := hall e he (by rw [hcontra]; rfl)
      rw [hcontra] at this
      cases this
    have hcne : ((store.countP (fun e => e.status = .completed) : ℚ)) ≠ 0 := by
      exact_mod_cast Nat.pos_iff_ne_zero.mp hc
    simp only [getExecutionStats, hf, Nat.add_zero, Nat.cast_zero, add_zero]
    rw [if_neg (Nat.pos_iff_ne_zero.mp hc)]
    rw [mul_div_assoc, div_self hcne, mul_one]

/-- Claim C7 witness: a store whose single execution completed has a
success rate of 100 percent. -/
theorem stats_success_rate_spec_witness :
    (getExecutionStats
      [{ id := "e1", definition_id := "codebase-analysis", status := .completed,
         step_results := [], start_time := some 0, end_time := some 1,
         error := none }]).success_rate = 100 :=
  (stats_success_rate_spec
      [{ id := "e1", definition_id := "codebase-analysis", status := .completed,
         step_results := [], start_time := some 0, end_time := some 1,
         error := none }]).2.2.2.2
    ⟨{ id := "e1", definition_id := "codebase-analysis", status := .completed,
       step_results := [], start_time := some 0, end_time := some 1, error := none },
      by simp, rfl⟩
    (by
      intro e he hterm
      rcases List.mem_cons.mp he with rfl | he2
      · rfl
      · cases he2)

/-! ## Swarm State Store round-trip -/

/-- `get_deployment` after `record_deployment` returns the persisted form
of the recorded deployment, in every store state. -/
theorem getDeployment_recordDeployment (d : SwarmDeployment)
    (store : List PersistedDeployment) :
    getDeployment (recordDeployment d store) d.deployment_id =
      some (persistDeployment d) := by
  induction store with
  | nil => simp [recordDeployment, getDeployment, persistDeployment]
  | cons r rest ih =>
      by_cases h : r.deployment_id = d.deployment_id
      · simp [recordDeployment, h, getDeployment, persistDeployment]
      · simp only [recordDeployment, if_neg h]
        unfold getDeployment at ih ⊢
        rw [List.find?_cons]
        have hbeq : (r.deployment_id == d.deployment_id) = false := by simp [h]
        simp [hbeq, ih]

/-- Claim C5: for every deployment `d` and every state of the Swarm State
Store, `record(d)` followed by `get(d.deployment_id)` returns exactly
`d`'s persisted form: same deployment id, config and start time, and the
agents mapping entry by entry with every process field intact. -/
theorem record_get_roundtrip (store : List PersistedDeployment) (d : SwarmDeployment) :
    getDeployment (recordDeployment d store) d.deployment_id =
      some (persistDeployment d) ∧
    (persistDeployment d).deployment_id = d.deployment_id ∧
    (persistDeployment d).config = d.config ∧
    (persistDeployment d).start_time = d.start_time ∧
    List.Forall₂
      (fun (orig : String × List AgentProcess) (stored : String × List PersistedProcess) =>
        stored.1 = orig.1 ∧
        List.Forall₂ (fun (p : AgentProcess) (q : PersistedProcess) =>
            q.pid = p.pid ∧ q.agent_type = p.agent_type ∧ q.instance_id = p.instance_id ∧
            q.command = p.command ∧ q.status = p.status ∧ q.tasks = p.tasks)
          orig.2 stored.2)
      d.agents (persistDeployment d).agents := by
  refine ⟨getDeployment_recordDeployment d store, rfl, rfl, rfl, ?_⟩
  show List.Forall₂ _ d.agents
    (d.agents.map (fun entry => (entry.1, entry.2.map persistProcess)))
  rw [List.forall₂_map_right_iff, List.forall₂_same]
  intro entry _
  refine ⟨rfl, ?_⟩
  show List.Forall₂ _ entry.2 (entry.2.map persistProcess)
  rw [List.forall₂_map_right_iff, List.forall₂_same]
  intro p _
  exact ⟨rfl, rfl, rfl, rfl, rfl, rfl⟩

/-! ## Deploy -/

/-- The spawned processes of one agent type: count, instance ids, pid
freshness and initial status. -/
theorem spawnInstances_spec (agentType : String) (spec : AgentSpec)
    (projectPath : String) (nextPid : Nat) :
    (spawnInstances agentType spec projectPath nextPid).length = spec.instances ∧
    (spawnInstances agentType spec projectPath nextPid).map (fun p => p.instance_id) =
      List.range' 1 spec.instances ∧
    ((spawnInstances agentType spec projectPath nextPid).map (fun p => p.pid)).Nodup ∧
    ∀ p ∈ spawnInstances agentType spec projectPath nextPid,
      p.status = ProcessStatus.running ∧ p.agent_type = agentType := by
  refine ⟨by simp [spawnInstances], ?_, ?_, ?_⟩
  · unfold spawnInstances
    rw [List.map_map, List.range'_eq_map_range]
    apply List.map_congr_left
    intro i _
    simp [Nat.add_comm]
  · unfold spawnInstances
    rw [List.map_map]
    refine List.Nodup.map ?_ (List.nodup_range spec.instances)
    intro a b hab
    simp only [Function.comp_apply] at hab
    omega
  · intro p hp
    simp only [spawnInstances, List.mem_map] at hp
    obtain ⟨i, -, rfl⟩ := hp
    exact ⟨rfl, rfl⟩

/-- Claim C2: for every configuration, `deploy` produces, for each agent
type configured with N instances, exactly N `AgentProcess` records with
`instance_id` running through the contiguous sequence `1..N`, pairwise
distinct pids, and initial status `running`. -/
theorem deploy_spawns_configured_instances (projectPath : String)
    (cfg : List (String × AgentSpec)) (basePid : Nat) :
    List.Forall₂
      (fun (entry : String × AgentSpec) (out : String × List AgentProcess) =>
        out.1 = entry.1 ∧
        out.2.length = entry.2.instances ∧
        out.2.map (fun p => p.instance_id) = List.range' 1 entry.2.instances ∧
        (out.2.map (fun p => p.pid)).Nodup ∧
        ∀ p ∈ out.2, p.status = ProcessStatus.running)
      cfg (deployAgents projectPath cfg basePid) := by
  induction cfg generalizing basePid with
  | nil => exact List.Forall₂.nil
  | cons entry rest ih =>
      obtain ⟨t, spec⟩ := entry
      simp only [deployAgents]
      have hs := spawnInstances_spec t spec projectPath basePid
      exact List.Forall₂.cons
        ⟨rfl, hs.1, hs.2.1, hs.2.2.1, fun p hp => (hs.2.2.2 p hp).1⟩
        (ih (basePid + spec.instances))

/-! ## Command Builder -/

/-- The fallback command is never the empty string. -/
theorem fallbackCommand_ne_empty (agentType : String) (inst : Nat) :
    fallbackCommand agentType inst ≠ "" := by
  intro h
  have hlen : (fallbackCommand agentType inst).length = 0 := by rw [h]; rfl
  unfold fallbackCommand at hlen
  rw [String.length_append, String.length_append, String.length_append] at hlen
  have h27 : (" exec \"Working on instance " : String).length = 27 := rfl
  have h1 : ("\"" : String).length = 1 := rfl
  omega

/-- Claim C4: the Command Builder never raises — a missing template, and a
malformed template or one referencing an unknown placeholder (a failed
render), both yield exactly the fallback
`<agent_type> exec \x22Working on instance <instance>\x22` — and its
output is always a non-empty command string. -/
theorem command_builder_total_with_fallback (agentType : String) (inst : Nat)
    (projectPath : String) (spec : AgentSpec) :
    (spec.command_template = none →
      buildAgentCommand agentType inst projectPath spec =
        agentType ++ " exec \"Working on instance " ++ toString inst ++ "\"") ∧
    (∀ tmpl, spec.command_template = some tmpl →
      renderTemplate (commandEnv agentType inst projectPath spec.tasks) tmpl = none →
      buildAgentCommand agentType inst projectPath spec =
        agentType ++ " exec \"Working on instance " ++ toString inst ++ "\"") ∧
    buildAgentCommand agentType inst projectPath spec ≠ "" := by
  refine ⟨?_, ?_, ?_⟩
  · intro h
    simp only [buildAgentCommand, h]
    rfl
  · intro tmpl h hrender
    simp only [buildAgentCommand, h, hrender]
    rfl
  · cases hct : spec.command_template with
    | none =>
        simp only [buildAgentCommand, hct]
        exact fallbackCommand_ne_empty agentType inst
    | some tmpl =>
        cases hr : renderTemplate (commandEnv agentType inst projectPath spec.tasks) tmpl with
        | none =>
            simp only [buildAgentCommand, hct, hr]
            exact fallbackCommand_ne_empty agentType inst
        | some rendered =>
            simp only [buildAgentCommand, hct, hr]
            by_cases he : rendered = ""
            · rw [if_pos he]
              exact fallbackCommand_ne_empty agentType inst
            · rw [if_neg he]
              exact he

/-- Claim C4 witness: the template with the unknown placeholder used by
the repository's unit test falls back to the fixed command and is
non-empty. -/
theorem command_builder_total_with_fallback_witness :
    buildAgentCommand "codex" 1 "/proj"
      { instances := 1, command_template := some "python -c {missing}",
        tasks := ["ignored"] } =
      "codex" ++ " exec \"Working on instance " ++ toString 1 ++ "\"" ∧
    buildAgentCommand "codex" 1 "/proj"
      { instances := 1, command_template := some "python -c {missing}",
        tasks := ["ignored"] } ≠ "" :=
  ⟨(command_builder_total_with_fallback "codex" 1 "/proj"
      { instances := 1, command_template := some "python -c {missing}",
        tasks := ["ignored"] }).2.1 "python -c {missing}" rfl (by decide),
   (command_builder_total_with_fallback "codex" 1 "/proj"
      { instances := 1, command_template := some "python -c {missing}",
        tasks := ["ignored"] }).2.2⟩

/-! ## The `--task` option of `_load_config` -/

/-- After the append-if-absent step the task is always present. -/
theorem mem_appendTaskIfAbsent (t : String) (s : AgentSpec) :
    t ∈ (appendTaskIfAbsent t s).tasks := by
  unfold appendTaskIfAbsent
  by_cases h : t ∈ s.tasks
  · rw [if_pos h]
    exact h
  · rw [if_neg h]
    simp

/-- Applying the append-if-absent step twice equals applying it once. -/
theorem appendTaskIfAbsent_idem (t : String) (s : AgentSpec) :
    appendTaskIfAbsent t (appendTaskIfAbsent t s) = appendTaskIfAbsent t s := by
  by_cases h : t ∈ s.tasks <;> simp [appendTaskIfAbsent, h]

/-- Claim C9 counterexample: for the task string `t = \x22\x22` the
`if task:` guard of `_load_config` (Python truthiness) skips the whole
block, so after loading no agent's task list contains `t` — refuting the
claim as stated for arbitrary task strings. -/
theorem load_config_task_empty_counterexample :
    (loadConfigApplyTask (some "")
        [("codex", { instances := 1, command_template := none, tasks := [] })]).all
      (fun p => decide ("" ∈ p.2.tasks)) = false := by decide

/-- Claim C9 (amended to non-empty task strings): loading with `--task t`
for a non-empty `t` appends `t` to each agent's task list only when
absent, so afterwards every agent's task list contains `t` exactly
`max(previous count, 1)` times, the other agent fields are untouched, and
applying the option twice with the same `t` yields the same agents
mapping. -/
theorem load_config_task_append (t : String) (ht : t ≠ "")
    (agents : List (String × AgentSpec)) :
    List.Forall₂
      (fun (orig : String × AgentSpec) (loaded : String × AgentSpec) =>
        loaded.1 = orig.1 ∧
        t ∈ loaded.2.tasks ∧
        loaded.2.tasks.count t = max (orig.2.tasks.count t) 1 ∧
        loaded.2.instances = orig.2.instances ∧
        loaded.2.command_template = orig.2.command_template)
      agents (loadConfigApplyTask (some t) agents) ∧
    loadConfigApplyTask (some t) (loadConfigApplyTask (some t) agents) =
      loadConfigApplyTask (some t) agents := by
  constructor
  · simp only [loadConfigApplyTask, if_neg ht]
    rw [List.forall₂_map_right_iff, List.forall₂_same]
    intro p _
    refine ⟨rfl, mem_appendTaskIfAbsent t p.2, ?_, ?_, ?_⟩
    · by_cases h : t ∈ p.2.tasks
      · simp only [appendTaskIfAbsent, if_pos h]
        have hpos : 0 < p.2.tasks.count t := List.count_pos_iff.mpr h
        omega
      · simp only [appendTaskIfAbsent, if_neg h]
        rw [List.count_append]
        rw [List.count_eq_zero.mpr h]
        simp
    · by_cases h : t ∈ p.2.tasks <;> simp [appendTaskIfAbsent, h]
    · by_cases h : t ∈ p.2.tasks <;> simp [appendTaskIfAbsent, h]
  · simp only [loadConfigApplyTask, if_neg ht]
    rw [List.map_map]
    apply List.map_congr_left
    intro p _
    simp [Function.comp, appendTaskIfAbsent_idem]

/-- Claim C9 witness: a second application of a concrete non-empty
`--task` value changes nothing. -/
theorem load_config_task_append_witness :
    loadConfigApplyTask (some "specs/tasks.md")
        (loadConfigApplyTask (some "specs/tasks.md")
          [("codex", { instances := 2, command_template := none, tasks := [] }),
           ("claude", { instances := 1, command_template := none,
                        tasks := ["specs/tasks.md"] })]) =
      loadConfigApplyTask (some "specs/tasks.md")
        [("codex", { instances := 2, command_template := none, tasks := [] }),
         ("claude", { instances := 1, command_template := none,
                      tasks := ["specs/tasks.md"] })] :=
  (load_config_task_append "specs/tasks.md" (by decide)
      [("codex", { instances := 2, command_template := none, tasks := [] }),
       ("claude", { instances := 1, command_template := none,
                    tasks := ["specs/tasks.md"] })]).2

/-! ## Health probe frame property -/

/-- A probe reports liveness and returns the OS state unchanged. -/
theorem pidRunning_frame (os : OsState) (pid : Nat) :
    pidRunning os pid = (decide (pid ∈ os.live), os) := by
  unfold pidRunning osKill
  by_cases h : pid ∈ os.live
  · simp [h]
  · simp [h]

/-- The counting loop of `_build_status_table` leaves the OS state of its
accumulator unchanged. -/
theorem statusRow_foldl_frame (processes : List PersistedProcess) :
    ∀ acc : (Nat × Nat) × OsState,
      (processes.foldl
        (fun acc proc =>
          if proc.pid ≠ 0 then
            let probe := pidRunning acc.2 proc.pid
            if probe.1 then ((acc.1.1 + 1, acc.1.2), probe.2)
            else ((acc.1.1, acc.1.2 + 1), probe.2)
          else ((acc.1.1, acc.1.2 + 1), acc.2))
        acc).2 = acc.2 := by
  induction processes with
  | nil => intro acc; rfl
  | cons proc rest ih =>
      intro acc
      rw [List.foldl_cons, ih]
      by_cases h : proc.pid ≠ 0
      · simp only [if_pos h, pidRunning_frame]
        split <;> rfl
      · simp only [if_neg h]

/-- One status row never changes the OS state. -/
theorem statusRow_frame (os : OsState) (processes : List PersistedProcess) :
    (statusRow os processes).2 = os :=
  statusRow_foldl_frame processes ((0, 0), os)

/-- Claim C8: the health probe is purely observational — the liveness
check sends only the null signal (`os.kill(pid, 0)`), a probe returns the
process table unchanged together with the liveness bit, and building the
whole status table leaves the process table exactly as it was, for every
tracked deployment. -/
theorem health_probe_observational :
    (∀ (os : OsState) (pid : Nat), pidRunning os pid = osKill os pid 0) ∧
    (∀ (os : OsState) (pid : Nat), pidRunning os pid = (decide (pid ∈ os.live), os)) ∧
    (∀ (os : OsState) (agents : List (String × List PersistedProcess)),
      (buildStatusRows os agents).2 = os) := by
  refine ⟨fun os pid => rfl, pidRunning_frame, ?_⟩
  intro os agents
  induction agents generalizing os with
  | nil => rfl
  | cons entry rest ih =>
      obtain ⟨t, procs⟩ := entry
      simp only [buildStatusRows]
      rw [ih, statusRow_frame]

/-! ## Workflow DAG Engine dependency ordering -/

/-- In a workflow whose step ids are distinct, steps are determined by
their id. -/
theorem step_id_unique (wf : List WorkflowStep)
    (hnodup : (wf.map (fun s => s.id)).Nodup)
    {s1 s2 : WorkflowStep} (h1 : s1 ∈ wf) (h2 : s2 ∈ wf) (heq : s1.id = s2.id) :
    s1 = s2 :=
  List.inj_on_of_nodup_map hnodup h1 h2 heq

/-- One engine transition preserves the scheduling invariant. -/
theorem engineInv_preserved (wf : List WorkflowStep)
    (hnodup : (wf.map (fun s => s.id)).Nodup)
    {st st' : EngineState} (hstep : EngineStep wf st st') (hinv : EngineInv wf st) :
    EngineInv wf st' := by
  cases hstep with
  | dispatch s hmem hnew hdeps =>
      intro s2 hs2 hin d hd
      rcases hin with hst | hrec
      · rcases List.mem_cons.mp hst with heq | hst2
        · have hs2s : s2 = s := step_id_unique wf hnodup hs2 hmem heq
          subst hs2s
          exact hdeps d hd
        · exact hinv s2 hs2 (Or.inl hst2) d hd
      · exact hinv s2 hs2 (Or.inr hrec) d hd
  | finish s result hmem hstarted hnotdone =>
      intro s2 hs2 hin d hd
      have hrec' : (⟨st.started, (s.id, result) :: st.step_results⟩ :
          EngineState).recordedIds = s.id :: st.recordedIds := rfl
      rcases hin with hst | hrec
      · have := hinv s2 hs2 (Or.inl hst) d hd
        exact List.mem_cons_of_mem _ this
      · rw [hrec'] at hrec
        rcases List.mem_cons.mp hrec with heq | hrec2
        · have hs2s : s2 = s := step_id_unique wf hnodup hs2 hmem heq
          subst hs2s
          have := hinv s2 hs2 (Or.inl hstarted) d hd
          exact List.mem_cons_of_mem _ this
        · have := hinv s2 hs2 (Or.inr hrec2) d hd
          exact List.mem_cons_of_mem _ this

/-- Claim C1: in every reachable state of a workflow execution whose step
ids are distinct, a step that has begun executing — and in particular one
whose entry is present in `step_results` — has every declared dependency
already recorded in `step_results`; so, for a step B depending on a step
A, B's entry is never present before A's. -/
theorem dependency_order_invariant (wf : List WorkflowStep)
    (hnodup : (wf.map (fun s => s.id)).Nodup)
    (st : EngineState) (hreach : EngineReachable wf st) :
    ∀ s ∈ wf, (s.id ∈ st.started ∨ s.id ∈ st.recordedIds) →
      ∀ d ∈ s.dependencies, d ∈ st.recordedIds := by
  have hinv : EngineInv wf st := by
    induction hreach with
    | refl =>
        intro s hs hin d hd
        rcases hin with h | h <;> cases h
    | tail hsteps hstep ih => exact engineInv_preserved wf hnodup hstep ih
  exact hinv

/-- Claim C1 witness: after running the two-step workflow where B depends
on A to completion, B is recorded and its dependency A is indeed
recorded. -/
theorem dependency_order_invariant_witness :
    "A" ∈ (⟨["B", "A"], [("B", "done"), ("A", "done")]⟩ : EngineState).recordedIds :=
  dependency_order_invariant
    [⟨"A", "claude", []⟩, ⟨"B", "codex", ["A"]⟩]
    (by decide)
    ⟨["B", "A"], [("B", "done"), ("A", "done")]⟩
    (by
      have h1 : EngineStep [⟨"A", "claude", []⟩, ⟨"B", "codex", ["A"]⟩]
          initialEngineState ⟨["A"], []⟩ :=
        EngineStep.dispatch initialEngineState ⟨"A", "claude", []⟩
          (by decide) (by decide) (by intro d hd; cases hd)
      have h2 : EngineStep [⟨"A", "claude", []⟩, ⟨"B", "codex", ["A"]⟩]
          ⟨["A"], []⟩ ⟨["A"], [("A", "done")]⟩ :=
        EngineStep.finish ⟨["A"], []⟩ ⟨"A", "claude", []⟩ "done"
          (by decide) (by decide) (by decide)
      have h3 : EngineStep [⟨"A", "claude", []⟩, ⟨"B", "codex", ["A"]⟩]
          ⟨["A"], [("A", "done")]⟩ ⟨["B", "A"], [("A", "done")]⟩ :=
        EngineStep.dispatch ⟨["A"], [("A", "done")]⟩ ⟨"B", "codex", ["A"]⟩
          (by decide) (by decide) (by decide)
      have h4 : EngineStep [⟨"A", "claude", []⟩, ⟨"B", "codex", ["A"]⟩]
          ⟨["B", "A"], [("A", "done")]⟩ ⟨["B", "A"], [("B", "done"), ("A", "done")]⟩ :=
        EngineStep.finish ⟨["B", "A"], [("A", "done")]⟩ ⟨"B", "codex", ["A"]⟩ "done"
          (by decide) (by decide) (by decide)
      exact Relation.ReflTransGen.tail
        (Relation.ReflTransGen.tail
          (Relation.ReflTransGen.tail (Relation.ReflTransGen.single h1) h2) h3) h4)
    ⟨"B", "codex", ["A"]⟩
    (by decide)
    (Or.inr (by decide))
    "A"
    (by decide)

end AgentSwarm
